import Mathlib

/-!
Verification of the videomrp job-orchestration core against its design
document.  The repository ships the dashboard frontend (TypeScript) but not
the backend engine; the backend components (Job Lifecycle Manager, Batch
Coordinator, Segment Scorer/Selector, Composition Planner) are modelled from
the design document, while the dashboard components (JobCreateForm,
SplitScreenFeature, JobsTable) are embedded from the TypeScript source.
-/

/-! ## Segment Scorer/Selector (modelled from the spec, section 4.4) -/

/-- Modelled from the spec: a candidate or chosen highlight segment
(`start`, `end`, `score`, `reason`); `end` is named `stop` because `end`
is reserved in Lean.  Times are in seconds (the spec discretizes the
duration budget at 1-second granularity) and scores are positive naturals
(step 1 discards candidates with score at most 0). -/
structure Seg where
  start : Nat
  stop : Nat
  score : Nat
  reason : String
deriving DecidableEq

/-- Duration of a segment in seconds. -/
def segDur (s : Seg) : Nat := s.stop - s.start

/-- Two segments overlap when their open time intervals intersect. -/
def segOverlaps (a b : Seg) : Bool :=
  decide (a.start < b.stop) && decide (b.start < a.stop)

/-- Modelled from the spec: step 1 of the selector discards any candidate
with `end ≤ start` or `score ≤ 0`. -/
def stage1ok (s : Seg) : Bool :=
  decide (s.start < s.stop) && decide (0 < s.score)

/-- Priority used by step 2 of the selector: higher score first,
tie-break longer duration, then earlier start. -/
def segPriority (a b : Seg) : Bool :=
  decide (b.score < a.score) ||
    (decide (a.score = b.score) &&
      (decide (segDur b < segDur a) ||
        (decide (segDur a = segDur b) && decide (a.start ≤ b.start))))

/-- Insertion step of the insertion sort over segments. -/
def insertSeg (le : Seg → Seg → Bool) (x : Seg) : List Seg → List Seg
  | [] => [x]
  | y :: ys => if le x y then x :: y :: ys else y :: insertSeg le x ys

/-- Insertion sort over segments by the given order. -/
def sortSeg (le : Seg → Seg → Bool) : List Seg → List Seg
  | [] => []
  | x :: xs => insertSeg le x (sortSeg le xs)

/-- Modelled from the spec: step 2 resolves pairwise time overlaps, keeping
only the higher-scoring segment of any intersecting pair (tie-break: longer
duration, then earlier start), and returns the surviving set sorted by
start. -/
def resolveOverlaps (cands : List Seg) : List Seg :=
  let kept := (sortSeg segPriority cands).foldl
    (fun acc c => if acc.any (fun d => segOverlaps c d) then acc else acc ++ [c]) []
  sortSeg (fun a b => decide (a.start ≤ b.start)) kept

/-- Total score of a list of segments. -/
def totalScore (l : List Seg) : Nat := (l.map (fun s => s.score)).sum

/-- Total duration of a list of segments. -/
def totalDur (l : List Seg) : Nat := (l.map segDur).sum

/-- Pairwise non-overlap of a list of segments. -/
def pairwiseDisjoint : List Seg → Bool
  | [] => true
  | c :: rest => rest.all (fun d => !segOverlaps c d) && pairwiseDisjoint rest

/-- Validity of a chosen subset: non-overlapping, at most `K` segments,
total duration at most the duration budget `B`. -/
def validChoice (K B : Nat) (sub : List Seg) : Bool :=
  pairwiseDisjoint sub && decide (sub.length ≤ K) && decide (totalDur sub ≤ B)

/-- Modelled from the spec: the duration budget is `⌈T · 1.1⌉` seconds. -/
def budget (T : Nat) : Nat := (11 * T + 9) / 10

/-- All valid subsets of the resolved candidate list, in source order. -/
def validChoices (S : List Seg) (K B : Nat) : List (List Seg) :=
  S.sublists.filter (validChoice K B)

/-- One step of the maximum-score scan (keeps the earlier subset on ties,
matching step 5 of the selector). -/
def bestStep (best cur : List Seg) : List Seg :=
  if totalScore best < totalScore cur then cur else best

/-- The maximum-total-score choice among the given subsets (the value the
DP of steps 3-4 computes and reconstructs). -/
def pickBest (l : List (List Seg)) : List Seg := l.foldl bestStep []

/-- Modelled from the spec: step 6 truncates a segment to `T` seconds from
its start and flags it with reason "truncated". -/
def truncateSeg (T : Nat) (c : Seg) : Seg :=
  { c with stop := min c.stop (c.start + T), reason := "truncated" }

/-- Modelled from the spec: the Segment Scorer/Selector, absent from src/.
Steps: filter degenerate candidates, resolve pairwise overlaps, pick the
maximum-score subset within the count and duration budgets (the DP of
steps 3-5), and fall back to the single highest-scoring candidate truncated
to `T` when no non-empty subset fits. -/
def selectSegments (cands : List Seg) (T K : Nat) : List Seg :=
  match pickBest (validChoices (resolveOverlaps (cands.filter stage1ok)) K (budget T)) with
  | [] =>
    match sortSeg segPriority (resolveOverlaps (cands.filter stage1ok)) with
    | [] => []
    | c :: _ => [truncateSeg T c]
  | best => best

/-- The worked example of the spec, section 8. -/
def specCands : List Seg :=
  [⟨0, 10, 9, "hook"⟩, ⟨5, 15, 4, "filler"⟩, ⟨20, 50, 8, "climax"⟩, ⟨55, 65, 7, "payoff"⟩]

/-- A candidate set on which overlap pre-resolution loses optimality: the
middle segment overlaps both outer ones and outscores each individually,
but the two outer ones are disjoint and jointly score higher. -/
def chainCands : List Seg :=
  [⟨0, 10, 5, "a"⟩, ⟨5, 15, 6, "b"⟩, ⟨12, 20, 5, "c"⟩]

/-- The disjoint pair of outer segments of `chainCands`. -/
def chainAlt : List Seg := [⟨0, 10, 5, "a"⟩, ⟨12, 20, 5, "c"⟩]

/-! ## Composition Planner (modelled from the spec, section 4.5) -/

/-- Fit mode of one source inside its sub-rectangle. -/
inductive FitMode
  | stretch
  | crop
  | pad
  | fit
deriving DecidableEq

/-- Two-source layout direction. -/
inductive Layout
  | horizontal
  | vertical
deriving DecidableEq

/-- A target rectangle (offset and size) within the output frame. -/
structure Rect where
  x : Nat
  y : Nat
  w : Nat
  h : Nat
deriving DecidableEq

/-- Native dimensions of one input source. -/
structure SourceDim where
  w : Nat
  h : Nat
deriving DecidableEq

/-- One source's entry of a composition plan. -/
structure PlanEntry where
  rect : Rect
  mode : FitMode
deriving DecidableEq

/-- Modelled from the spec: a CompositionPlan holds the output frame size,
one rectangle-and-fit-mode entry per source, and the audio selection which
the Planner carries through unchanged. -/
structure CompositionPlan where
  frameW : Nat
  frameH : Nat
  entries : List PlanEntry
  audio : String
deriving DecidableEq

/-- Failure conditions of the Composition Planner. -/
inductive PlanError
  | invalidRatio
  | unsupportedLayout
deriving DecidableEq

deriving instance DecidableEq for Except

/-- Splits a character list into the groups separated by a colon. -/
def splitOnColon : List Char → List (List Char)
  | [] => [[]]
  | c :: cs =>
    let r := splitOnColon cs
    if c = ':' then [] :: r
    else
      match r with
      | [] => [[c]]
      | g :: gs => (c :: g) :: gs

/-- Parses a non-empty all-digit character list as a natural number. -/
def parseNatDigits (cs : List Char) : Option Nat :=
  if cs.isEmpty || !cs.all Char.isDigit then none
  else some (cs.foldl (fun n c => 10 * n + (c.toNat - 48)) 0)

/-- Modelled from the spec: a ratio string is valid when it is parseable as
W:H with positive integers; anything else triggers InvalidRatio. -/
def parseRatio (s : String) : Option (Nat × Nat) :=
  match splitOnColon s.data with
  | [a, b] =>
    match parseNatDigits a, parseNatDigits b with
    | some x, some y => if 0 < x && 0 < y then some (x, y) else none
    | _, _ => none
  | _ => none

/-- Modelled from the spec: the output frame size is derived from the
output aspect ratio at a fixed reference resolution, the shorter dimension
normalized to 1080 (9:16 gives 1080 by 1920, 16:9 gives 1920 by 1080). -/
def frameSize (r : Nat × Nat) : Nat × Nat :=
  let m := min r.1 r.2
  (r.1 * 1080 / m, r.2 * 1080 / m)

/-- Modelled from the spec: a source whose aspect ratio matches its
sub-rectangle is stretched; otherwise, with no per-source method given,
the default fit mode for split-screen composites is crop. -/
def fitModeFor (src : SourceDim) (rect : Rect) : FitMode :=
  if src.w * rect.h = src.h * rect.w then .stretch else .crop

/-- Modelled from the spec: the two-source split-screen Composition
Planner, absent from src/.  It parses both ratio strings (failing with
InvalidRatio otherwise), derives the output frame from the output aspect
ratio, partitions the frame along the layout axis in the proportion of the
split ratio with the second rectangle taking the remainder, and assigns
each source its fit mode. -/
def planSplitScreen (s1 s2 : SourceDim) (layout : Layout)
    (splitRatio outputRatio audio : String) : Except PlanError CompositionPlan :=
  match parseRatio splitRatio, parseRatio outputRatio with
  | some (a, b), some orat =>
    let fw := (frameSize orat).1
    let fh := (frameSize orat).2
    let rects : Rect × Rect :=
      match layout with
      | .horizontal =>
        let w1 := fw * a / (a + b)
        (⟨0, 0, w1, fh⟩, ⟨w1, 0, fw - w1, fh⟩)
      | .vertical =>
        let h1 := fh * a / (a + b)
        (⟨0, 0, fw, h1⟩, ⟨0, h1, fw, fh - h1⟩)
    .ok ⟨fw, fh, [⟨rects.1, fitModeFor s1 rects.1⟩, ⟨rects.2, fitModeFor s2 rects.2⟩], audio⟩
  | _, _ => .error .invalidRatio

/-- The share of the split axis allocated to the first source. -/
def axisShare (frame : Nat × Nat) (layout : Layout) (a b : Nat) : Nat :=
  match layout with
  | .horizontal => frame.1 * a / (a + b)
  | .vertical => frame.2 * a / (a + b)

/-- The two rectangles tile the `fw` by `fh` frame along the layout axis
with no gap and no overlap, the first taking the floor of the proportional
share of the split ratio `a : b` and the second the remainder. -/
def tilesFrame (fw fh : Nat) (layout : Layout) (a b : Nat) (r1 r2 : Rect) : Prop :=
  match layout with
  | .horizontal =>
    r1.x = 0 ∧ r1.y = 0 ∧ r1.h = fh ∧ r2.y = 0 ∧ r2.h = fh ∧
      r1.w = fw * a / (a + b) ∧ r2.x = r1.w ∧ r1.w + r2.w = fw
  | .vertical =>
    r1.x = 0 ∧ r1.y = 0 ∧ r1.w = fw ∧ r2.x = 0 ∧ r2.w = fw ∧
      r1.h = fh * a / (a + b) ∧ r2.y = r1.h ∧ r1.h + r2.h = fh

/-! ## SplitScreenFeature (embedded from
src/frontend/src/components/features/SplitScreenFeature.tsx) -/

/-- The split-ratio options offered by the SplitScreenFeature buttons. -/
def ratioOptions : List String := ["1:1", "2:1", "1:2"]

/-- The output-aspect-ratio options of the SplitScreenFeature select. -/
def outputRatioOptions : List String := ["9:16", "16:9", "1:1"]

/-- The audio-source options of the SplitScreenFeature select. -/
def audioOptions : List String := ["both", "video1", "video2", "none"]

/-- The SplitScreenFeature component state (layout, ratio, outputRatio,
audioSource useState hooks). -/
structure SplitScreenState where
  layout : Layout
  ratio : String
  outputRatio : String
  audioSource : String
deriving DecidableEq

/-- Initial state of the SplitScreenFeature hooks. -/
def initSplitState : SplitScreenState :=
  { layout := .horizontal, ratio := "1:1", outputRatio := "9:16", audioSource := "both" }

/-- User interactions offered by the SplitScreenFeature controls: each
setter can only be invoked with one of the fixed options rendered by the
component. -/
inductive SplitEvent
  | setLayout (l : Layout)
  | setRatio (i : Fin ratioOptions.length)
  | setOutputRatio (i : Fin outputRatioOptions.length)
  | setAudio (i : Fin audioOptions.length)

/-- One state update of the SplitScreenFeature component. -/
def splitStep (s : SplitScreenState) : SplitEvent → SplitScreenState
  | .setLayout l => { s with layout := l }
  | .setRatio i => { s with ratio := ratioOptions.get i }
  | .setOutputRatio i => { s with outputRatio := outputRatioOptions.get i }
  | .setAudio i => { s with audioSource := audioOptions.get i }

/-- The component state after a sequence of interactions. -/
def splitRun (es : List SplitEvent) : SplitScreenState :=
  es.foldl splitStep initSplitState

/-- The query parameters of the merge-split-screen request issued by
`handleMerge` (layout, ratio, output_ratio, audio_source are taken directly
from the component state). -/
structure MergeRequest where
  layout : Layout
  ratio : String
  outputRatio : String
  audioSource : String
deriving DecidableEq

/-- `handleMerge` builds the request from the current component state. -/
def mergeRequest (s : SplitScreenState) : MergeRequest :=
  { layout := s.layout, ratio := s.ratio, outputRatio := s.outputRatio,
    audioSource := s.audioSource }

/-! ## JobCreateForm (embedded from
src/frontend/src/components/JobCreateForm.tsx) -/

/-- The duration clamp of `submit`: Math.max(5, Math.min(duration, 600)). -/
def clampDuration (d : Int) : Int := max 5 (min d 600)

/-- The duration field of the job-creation request body built by `submit`
from the form's duration state. -/
def submitDuration (formDuration : Int) : Int := clampDuration formDuration

/-- The processing-flow select values of the JobCreateForm. -/
inductive ProcFlow
  | auto
  | fast
  | ai
  | full
  | custom
deriving DecidableEq

/-- The toggle keys a processing-flow preset may overwrite in the
JobCreateForm (the five advanced processing options plus the change_music
and add_effects feature toggles). -/
inductive ToggleKey
  | separate_audio
  | diarization
  | ocr
  | auto_reup
  | publish_public
  | change_music
  | add_effects
deriving DecidableEq

/-- The five advanced processing-option checkboxes, whose handlers switch
the flow to custom. -/
inductive AdvKey
  | separate_audio
  | diarization
  | ocr
  | auto_reup
  | publish_public
deriving DecidableEq

/-- The feature-toggle checkboxes that presets may overwrite but whose
handlers do not touch the flow. -/
inductive FeatKey
  | change_music
  | add_effects
deriving DecidableEq

/-- Embedding of an AdvKey into the preset key space. -/
def AdvKey.toKey : AdvKey → ToggleKey
  | .separate_audio => .separate_audio
  | .diarization => .diarization
  | .ocr => .ocr
  | .auto_reup => .auto_reup
  | .publish_public => .publish_public

/-- Embedding of a FeatKey into the preset key space. -/
def FeatKey.toKey : FeatKey → ToggleKey
  | .change_music => .change_music
  | .add_effects => .add_effects

/-- A preset entry of the fetched processingFlows list: for each toggle key
it either lists a value or omits the key (the hasOwnProperty checks of the
preset-applying effect). -/
def Preset : Type := ToggleKey → Option Bool

/-- The fetched preset table, keyed by flow (none when the list has no
entry for that flow). -/
def PresetTable : Type := ProcFlow → Option Preset

/-- The JobCreateForm state relevant to flow presets: the selected
processing flow and the preset-affected toggles. -/
structure FormState where
  flow : ProcFlow
  toggles : ToggleKey → Bool

/-- Initial toggle values of the JobCreateForm useState hooks. -/
def initToggles : ToggleKey → Bool
  | .change_music => true
  | .add_effects => true
  | _ => false

/-- Initial JobCreateForm state (flow auto). -/
def initFormState : FormState := { flow := .auto, toggles := initToggles }

/-- Per-key preset application: a toggle listed by the preset is
overwritten, an unlisted toggle keeps its prior value (the hasOwnProperty
guards of the effect at lines 63-86). -/
def applyPreset (p : Preset) (t : ToggleKey → Bool) : ToggleKey → Bool :=
  fun k => (p k).getD (t k)

/-- Point update of the toggle assignment. -/
def updateToggle (t : ToggleKey → Bool) (k : ToggleKey) (b : Bool) : ToggleKey → Bool :=
  fun q => if q = k then b else t q

/-- User interactions of the JobCreateForm relevant to flow presets. -/
inductive FormEvent
  | selectFlow (f : ProcFlow)
  | toggleAdvanced (k : AdvKey) (b : Bool)
  | toggleFeature (k : FeatKey) (b : Bool)

/-- One state update of the JobCreateForm: selecting a non-custom flow
applies its preset per-key (the effect on processing_flow change);
switching an advanced processing option sets the flow to custom (its
onChange handler); switching change_music or add_effects only stores the
value. -/
def formStep (table : PresetTable) (s : FormState) : FormEvent → FormState
  | .selectFlow f =>
    if f = .custom then { s with flow := f }
    else
      match table f with
      | some p => { flow := f, toggles := applyPreset p s.toggles }
      | none => { s with flow := f }
  | .toggleAdvanced k b =>
    { flow := .custom, toggles := updateToggle s.toggles k.toKey b }
  | .toggleFeature k b =>
    { s with toggles := updateToggle s.toggles k.toKey b }

/-- The form state after a sequence of interactions. -/
def formRun (table : PresetTable) (es : List FormEvent) : FormState :=
  es.foldl (formStep table) initFormState

/-- A concrete fetched preset table: the auto flow lists values for every
toggle except ocr. -/
def presetAutoCX : Preset := fun k =>
  match k with
  | .ocr => none
  | .change_music => some true
  | _ => some false

/-- Concrete preset table holding only the auto preset. -/
def tableCX : PresetTable := fun f =>
  if f = .auto then some presetAutoCX else none

/-! ## Job Lifecycle Manager (modelled from the spec, sections 3-4.1) -/

/-- Job status values. -/
inductive JobStatus
  | pending
  | downloading
  | analyzing
  | processing
  | completed
  | failed
  | cancelled
deriving DecidableEq

/-- Terminal statuses (Completed, Failed, Cancelled). -/
def JobStatus.isTerminal : JobStatus → Bool
  | .completed => true
  | .failed => true
  | .cancelled => true
  | _ => false

/-- Statuses of an active run. -/
def JobStatus.isRunning : JobStatus → Bool
  | .downloading => true
  | .analyzing => true
  | .processing => true
  | _ => false

/-- The forward pipeline order of section 4.1:
Pending to Downloading to Analyzing to Processing to Completed. -/
def nextStage : JobStatus → Option JobStatus
  | .pending => some .downloading
  | .downloading => some .analyzing
  | .analyzing => some .processing
  | .processing => some .completed
  | _ => none

/-- Modelled from the spec: the legal transition set of section 4.1 -
forward pipeline steps, any non-terminal state to Failed or Cancelled, and
Failed to Pending (retry only). -/
def legalTransition (s t : JobStatus) : Bool :=
  decide (nextStage s = some t) ||
    (!s.isTerminal && (decide (t = .failed) || decide (t = .cancelled))) ||
    (decide (s = .failed) && decide (t = .pending))

/-- Job options carried in the create request: target duration, target
platform, video type and processing flow (the enum-valued fields the spec
says Create validates). -/
structure JobOptions where
  duration : Int
  targetPlatform : String
  videoType : String
  processingFlow : String
deriving DecidableEq

/-- The Job entity of section 3 (fields the claims speak about). -/
structure Job where
  id : Nat
  sourceRef : String
  options : JobOptions
  batchId : Option Nat
  status : JobStatus
  progress : Nat
  errorMessage : Option String
  outputRef : Option String
  retryCount : Nat
  createdAt : Nat
deriving DecidableEq

/-- The caller-facing error taxonomy of section 7 that the lifecycle
operations return. -/
inductive ApiError
  | invalidOptions
  | notFound
  | invalidState
deriving DecidableEq

/-- Events a Job can receive: a stage completion advancing the pipeline
(carrying the output artifact used when the run completes), a progress
report from the Stage Executor, an unrecoverable stage failure, an explicit
Cancel, and an explicit Retry. -/
inductive JobEvent
  | advance (artifact : String)
  | reportProgress (p : Nat)
  | fail (msg : String)
  | cancel
  | retry
deriving DecidableEq

/-- Modelled from the spec: the single-writer transition function of the
Job Lifecycle Manager, absent from src/.  Advance moves one pipeline stage
forward (setting outputRef and full progress on completion) and is inert on
terminal jobs; progress reports are persisted only when they respect the
monotone 0-100 contract of section 4.2 during a run; fail and cancel move
any non-terminal job to Failed or Cancelled; cancel is a no-op success on
terminal jobs; retry performs Failed to Pending (clearing errorMessage,
resetting progress, incrementing retryCount) and returns InvalidState
without mutating the job otherwise. -/
def jobStep (j : Job) : JobEvent → Job × Option ApiError
  | .advance art =>
    match nextStage j.status with
    | some t =>
      if t = .completed then
        ({ j with status := t, progress := 100, outputRef := some art }, none)
      else ({ j with status := t }, none)
    | none => (j, none)
  | .reportProgress p =>
    if j.status.isRunning && decide (j.progress ≤ p) && decide (p ≤ 100) then
      ({ j with progress := p }, none)
    else (j, none)
  | .fail msg =>
    if j.status.isTerminal then (j, none)
    else ({ j with status := .failed, errorMessage := some msg }, none)
  | .cancel =>
    if j.status.isTerminal then (j, none)
    else ({ j with status := .cancelled }, none)
  | .retry =>
    if j.status = .failed then
      ({ j with status := .pending, progress := 0, errorMessage := none,
                retryCount := j.retryCount + 1 }, none)
    else (j, some ApiError.invalidState)

/-- The job state reached after an event, discarding the returned error. -/
def jobApply (j : Job) (e : JobEvent) : Job := (jobStep j e).1

/-- The trace of job states observed along a sequence of events. -/
def jobTrace (j : Job) (es : List JobEvent) : List Job := es.scanl jobApply j

/-- The known target platform enum values (section 6 shapes). -/
def knownPlatforms : List String :=
  ["tiktok", "youtube", "facebook", "instagram", "douyin", "twitter", "generic"]

/-- The known video type enum values. -/
def knownVideoTypes : List String := ["short", "highlight", "viral", "meme", "full", "reel"]

/-- The known processing flow enum values. -/
def knownFlows : List String := ["auto", "fast", "ai", "full", "custom"]

/-- Modelled from the spec: Create validates the options - duration
positive and enum values known. -/
def validOptions (o : JobOptions) : Bool :=
  decide (0 < o.duration) && knownPlatforms.contains o.targetPlatform &&
    knownVideoTypes.contains o.videoType && knownFlows.contains o.processingFlow

/-- A freshly persisted Job: Pending, zero progress, no error, no output,
zero retries. -/
def mkJob (id : Nat) (src : String) (o : JobOptions) (now : Nat) : Job :=
  { id := id, sourceRef := src, options := o, batchId := none, status := .pending,
    progress := 0, errorMessage := none, outputRef := none, retryCount := 0,
    createdAt := now }

/-- Modelled from the spec: Create(sourceRef, options) validates the
options, failing with InvalidOptions and persisting nothing otherwise; on
success it persists a new Pending job and returns it without starting
execution. -/
def createJob (store : List Job) (src : String) (o : JobOptions) (now : Nat) :
    List Job × Except ApiError Job :=
  if validOptions o then
    let j := mkJob store.length src o now
    (store ++ [j], .ok j)
  else (store, .error .invalidOptions)

/-! ## Batch Coordinator (modelled from the spec, section 4.3) -/

/-- Batch status values. -/
inductive BatchStatus
  | created
  | running
  | completed
  | failed
  | cancelled
deriving DecidableEq

/-- A Batch record: only the ordered child id list is stored; status and
counts are derived on every read. -/
structure Batch where
  id : Nat
  jobIds : List Nat
deriving DecidableEq

/-- Point lookup of a job in the store. -/
def findJob (store : List Job) (i : Nat) : Option Job :=
  store.find? (fun j => j.id = i)

/-- The statuses of a batch's resolvable children, in child order. -/
def childStatuses (store : List Job) (b : Batch) : List JobStatus :=
  b.jobIds.filterMap (fun i => (findJob store i).map (fun j => j.status))

/-- Modelled from the spec: the derived batch status - Completed when all
children are terminal and not all Failed, Failed only when all Failed,
Created while nothing has started, Running otherwise. -/
def deriveBatchStatus (l : List JobStatus) : BatchStatus :=
  if l.all (fun s => s.isTerminal) then
    if l.all (fun s => decide (s = .failed)) then .failed else .completed
  else if l.all (fun s => decide (s = .pending)) then .created
  else .running

/-- The aggregate view Status(batchId) returns, recomputed from the current
child statuses on every call. -/
structure BatchView where
  total : Nat
  processed : Nat
  failedCount : Nat
  status : BatchStatus
deriving DecidableEq

/-- Modelled from the spec: Status(batchId) recomputes the aggregate counts
and the derived status from the current child Job statuses. -/
def batchStatusView (store : List Job) (b : Batch) : BatchView :=
  let l := childStatuses store b
  { total := l.length,
    processed := (l.filter (fun s => decide (s = .completed))).length,
    failedCount := (l.filter (fun s => decide (s = .failed))).length,
    status := deriveBatchStatus l }

/-- Modelled from the spec: Cancel(batchId) calls Cancel on every child
Job; Cancel is a no-op on already-terminal children. -/
def batchCancel (store : List Job) (b : Batch) : List Job :=
  store.map (fun j => if b.jobIds.contains j.id then jobApply j .cancel else j)

/-- Sample valid create options used by witnesses. -/
def sampleOptions : JobOptions :=
  { duration := 60, targetPlatform := "tiktok", videoType := "short",
    processingFlow := "auto" }

/-- A sample pending job used by witnesses. -/
def sampleJob : Job := mkJob 0 "https://example.com/v" sampleOptions 0

/-- A sample failed job used by witnesses. -/
def sampleFailedJob : Job :=
  { sampleJob with status := .failed, errorMessage := some "stage failure", progress := 35 }

/-! ## Helper lemmas -/

theorem bestStep_ge_left (best cur : List Seg) :
    totalScore best ≤ totalScore (bestStep best cur) := by
  unfold bestStep
  split
  · omega
  · exact Nat.le_refl _

theorem bestStep_ge_right (best cur : List Seg) :
    totalScore cur ≤ totalScore (bestStep best cur) := by
  unfold bestStep
  split
  · exact Nat.le_refl _
  · omega

theorem foldl_bestStep_ge_init :
    ∀ (l : List (List Seg)) (init : List Seg),
      totalScore init ≤ totalScore (l.foldl bestStep init) := by
  intro l
  induction l with
  | nil => intro init; exact Nat.le_refl _
  | cons x xs ih =>
    intro init
    exact Nat.le_trans (bestStep_ge_left init x) (ih (bestStep init x))

theorem foldl_bestStep_ge_mem :
    ∀ (l : List (List Seg)) (init sub : List Seg), sub ∈ l →
      totalScore sub ≤ totalScore (l.foldl bestStep init) := by
  intro l
  induction l with
  | nil => intro init sub h; cases h
  | cons x xs ih =>
    intro init sub h
    rcases List.mem_cons.mp h with rfl | hx
    · exact Nat.le_trans (bestStep_ge_right init sub) (foldl_bestStep_ge_init xs _)
    · exact ih _ sub hx

theorem pickBest_ge (l : List (List Seg)) (sub : List Seg) (h : sub ∈ l) :
    totalScore sub ≤ totalScore (pickBest l) :=
  foldl_bestStep_ge_mem l [] sub h

/-! ## C1 - segment selection optimality -/

/-- C1 counterexample: on the candidate set `chainCands` with T = 40 and
K = 3, the pair `chainAlt` is a valid subset of the candidates
(non-overlapping, at most 3 segments, duration within the budget) whose
total score strictly exceeds the total score of the selector's output:
pairwise overlap pre-resolution (step 2) keeps only the middle segment,
so the claimed optimality over all valid subsets of the candidates fails. -/
theorem C1_counterexample :
    chainAlt ∈ chainCands.sublists ∧
    validChoice 3 (budget 40) chainAlt = true ∧
    totalScore (selectSegments chainCands 40 3) < totalScore chainAlt := by
  decide

/-- C1 (amended): the selector's output total score is greater than or
equal to the total score of every valid subset (non-overlapping, at most K
segments, duration at most the budget) of the overlap-resolved candidate
set produced by step 2; and on the spec's worked example with T = 40 and
K = 3 the output is (0,10) and (20,50) with total score 17. -/
theorem C1_selector_optimal :
    (∀ (cands : List Seg) (T K : Nat) (sub : List Seg),
        sub ∈ (resolveOverlaps (cands.filter stage1ok)).sublists →
        validChoice K (budget T) sub = true →
        totalScore sub ≤ totalScore (selectSegments cands T K)) ∧
    selectSegments specCands 40 3 = [⟨0, 10, 9, "hook"⟩, ⟨20, 50, 8, "climax"⟩] ∧
    totalScore (selectSegments specCands 40 3) = 17 := by
  refine ⟨?_, by decide, by decide⟩
  intro cands T K sub hmem hvalid
  have h1 : sub ∈ validChoices (resolveOverlaps (cands.filter stage1ok)) K (budget T) :=
    List.mem_filter.mpr ⟨hmem, hvalid⟩
  have h2 := pickBest_ge _ _ h1
  unfold selectSegments
  cases hp : pickBest (validChoices (resolveOverlaps (cands.filter stage1ok)) K (budget T)) with
  | nil =>
    rw [hp] at h2
    simp only [totalScore, List.map_nil, List.sum_nil, Nat.le_zero] at h2
    simp only [totalScore, h2]
    exact Nat.zero_le _
  | cons c rest =>
    rw [hp] at h2
    exact h2

/-- C1 witness: the universal optimality part applied to the worked
example's own output subset. -/
theorem C1_selector_optimal_witness :
    totalScore [⟨0, 10, 9, "hook"⟩, ⟨20, 50, 8, "climax"⟩] ≤
      totalScore (selectSegments specCands 40 3) :=
  C1_selector_optimal.1 specCands 40 3 [⟨0, 10, 9, "hook"⟩, ⟨20, 50, 8, "climax"⟩]
    (by decide) (by decide)

theorem parseRatio_pos {s : String} {x y : Nat} (h : parseRatio s = some (x, y)) :
    0 < x ∧ 0 < y := by
  unfold parseRatio at h
  split at h
  · split at h
    · split at h
      · rename_i hcond
        rcases Option.some.inj h with heq
        obtain ⟨hx, hy⟩ := Prod.mk.injEq .. ▸ heq
        simp only [Bool.and_eq_true, decide_eq_true_eq] at hcond
        subst hx
        subst hy
        exact hcond
      · cases h
    · cases h
  · cases h

theorem frameSize_ge (x y : Nat) (hx : 0 < x) (hy : 0 < y) :
    1080 ≤ (frameSize (x, y)).1 ∧ 1080 ≤ (frameSize (x, y)).2 := by
  unfold frameSize
  have hm : 0 < min x y := lt_min hx hy
  constructor
  · simp only []
    rw [Nat.le_div_iff_mul_le hm]
    calc 1080 * min x y ≤ 1080 * x := Nat.mul_le_mul_left _ (min_le_left x y)
      _ = x * 1080 := Nat.mul_comm _ _
  · simp only []
    rw [Nat.le_div_iff_mul_le hm]
    calc 1080 * min x y ≤ 1080 * y := Nat.mul_le_mul_left _ (min_le_right x y)
      _ = y * 1080 := Nat.mul_comm _ _

theorem share_le (L a b : Nat) (hb : 0 < b) : L * a / (a + b) ≤ L := by
  have hab : 0 < a + b := by omega
  calc L * a / (a + b) ≤ L * (a + b) / (a + b) :=
        Nat.div_le_div_right (Nat.mul_le_mul_left _ (by omega))
    _ = L := Nat.mul_div_cancel L hab

theorem share_lt (L a b : Nat) (hL : 0 < L) (hb : 0 < b) : L * a / (a + b) < L := by
  have hab : 0 < a + b := by omega
  rw [Nat.div_lt_iff_lt_mul hab]
  have : 0 < L * b := Nat.mul_pos hL hb
  calc L * a < L * a + L * b := by omega
    _ = L * (a + b) := by rw [Nat.mul_add]

/-! ## C3 - composition plan coverage -/

/-- C3 counterexample: the split ratio "1:2000" is valid (parseable as W:H
with positive integers), yet on a 1080-wide 9:16 frame the first source's
proportional share floors to zero pixels, so its sub-rectangle has width 0,
refuting the claim that every valid input yields positive width and height
for both sub-rectangles. -/
theorem C3_counterexample :
    parseRatio "1:2000" = some (1, 2000) ∧
    planSplitScreen ⟨1920, 1080⟩ ⟨1920, 1080⟩ .horizontal "1:2000" "9:16" "both" =
      .ok ⟨1080, 1920, [⟨⟨0, 0, 0, 1920⟩, .crop⟩, ⟨⟨0, 0, 1080, 1920⟩, .crop⟩], "both"⟩ := by
  decide

/-- C3 (amended): for every valid splitRatio and outputAspectRatio, the two
sub-rectangles of the plan exactly tile the output frame along the layout
axis (no gap, no overlap, the first taking the floor of the proportional
share of the split ratio and the second the remainder); both have positive
width and height provided the first ratio part's integer share of the split
axis is at least one pixel.  In the concrete case of two 1920 by 1080
sources with horizontal layout, splitRatio 1:1 and outputRatio 9:16, the
frame is 1080 by 1920, each sub-rectangle is 540 by 1920 and both fit modes
are crop. -/
theorem C3_plan_coverage :
    (∀ (s1 s2 : SourceDim) (layout : Layout) (sr orr au : String) (a b ow oh : Nat),
        parseRatio sr = some (a, b) → parseRatio orr = some (ow, oh) →
        ∃ e1 e2 : PlanEntry,
          planSplitScreen s1 s2 layout sr orr au =
            .ok { frameW := (frameSize (ow, oh)).1, frameH := (frameSize (ow, oh)).2,
                  entries := [e1, e2], audio := au } ∧
          tilesFrame (frameSize (ow, oh)).1 (frameSize (ow, oh)).2 layout a b
            e1.rect e2.rect ∧
          (1 ≤ axisShare (frameSize (ow, oh)) layout a b →
            0 < e1.rect.w ∧ 0 < e1.rect.h ∧ 0 < e2.rect.w ∧ 0 < e2.rect.h)) ∧
    planSplitScreen ⟨1920, 1080⟩ ⟨1920, 1080⟩ .horizontal "1:1" "9:16" "both" =
      .ok ⟨1080, 1920, [⟨⟨0, 0, 540, 1920⟩, .crop⟩, ⟨⟨540, 0, 540, 1920⟩, .crop⟩], "both"⟩ := by
  refine ⟨?_, by decide⟩
  intro s1 s2 layout sr orr au a b ow oh h1 h2
  obtain ⟨ha, hb⟩ := parseRatio_pos h1
  obtain ⟨how, hoh⟩ := parseRatio_pos h2
  obtain ⟨hfw, hfh⟩ := frameSize_ge ow oh how hoh
  unfold planSplitScreen
  rw [h1, h2]
  cases layout with
  | horizontal =>
    refine ⟨_, _, rfl, ?_, ?_⟩
    · unfold tilesFrame
      refine ⟨rfl, rfl, rfl, rfl, rfl, rfl, rfl, ?_⟩
      exact Nat.add_sub_cancel' (share_le _ a b hb)
    · intro hshare
      simp only [axisShare] at hshare
      have hlt := share_lt ((frameSize (ow, oh)).1) a b
        (Nat.lt_of_lt_of_le (by omega) hfw) hb
      exact ⟨hshare, Nat.lt_of_lt_of_le (by omega) hfh,
        Nat.sub_pos_of_lt hlt, Nat.lt_of_lt_of_le (by omega) hfh⟩
  | vertical =>
    refine ⟨_, _, rfl, ?_, ?_⟩
    · unfold tilesFrame
      refine ⟨rfl, rfl, rfl, rfl, rfl, rfl, rfl, ?_⟩
      exact Nat.add_sub_cancel' (share_le _ a b hb)
    · intro hshare
      simp only [axisShare] at hshare
      have hlt := share_lt ((frameSize (ow, oh)).2) a b
        (Nat.lt_of_lt_of_le (by omega) hfh) hb
      exact ⟨Nat.lt_of_lt_of_le (by omega) hfw, hshare,
        Nat.lt_of_lt_of_le (by omega) hfw, Nat.sub_pos_of_lt hlt⟩

/-- C3 witness: the coverage part applied to the concrete 1:1 horizontal
9:16 scenario of the spec. -/
theorem C3_plan_coverage_witness :
    ∃ e1 e2 : PlanEntry,
      planSplitScreen ⟨1920, 1080⟩ ⟨1920, 1080⟩ .horizontal "1:1" "9:16" "both" =
        .ok { frameW := (frameSize (9, 16)).1, frameH := (frameSize (9, 16)).2,
              entries := [e1, e2], audio := "both" } ∧
      tilesFrame (frameSize (9, 16)).1 (frameSize (9, 16)).2 .horizontal 1 1
        e1.rect e2.rect ∧
      (1 ≤ axisShare (frameSize (9, 16)) .horizontal 1 1 →
        0 < e1.rect.w ∧ 0 < e1.rect.h ∧ 0 < e2.rect.w ∧ 0 < e2.rect.h) :=
  C3_plan_coverage.1 ⟨1920, 1080⟩ ⟨1920, 1080⟩ .horizontal "1:1" "9:16" "both"
    1 1 9 16 (by decide) (by decide)

/-! ## C10 - split-screen request safety -/

theorem splitRun_ratio_mem :
    ∀ (es : List SplitEvent) (s : SplitScreenState), s.ratio ∈ ratioOptions →
      (es.foldl splitStep s).ratio ∈ ratioOptions := by
  intro es
  induction es with
  | nil => intro s h; exact h
  | cons e es ih =>
    intro s h
    refine ih _ ?_
    cases e with
    | setRatio i => exact List.get_mem _ i.1 i.2
    | setLayout l => exact h
    | setOutputRatio i => exact h
    | setAudio i => exact h

theorem splitRun_outputRatio_mem :
    ∀ (es : List SplitEvent) (s : SplitScreenState), s.outputRatio ∈ outputRatioOptions →
      (es.foldl splitStep s).outputRatio ∈ outputRatioOptions := by
  intro es
  induction es with
  | nil => intro s h; exact h
  | cons e es ih =>
    intro s h
    refine ih _ ?_
    cases e with
    | setOutputRatio i => exact List.get_mem _ i.1 i.2
    | setLayout l => exact h
    | setRatio i => exact h
    | setAudio i => exact h

theorem splitRun_audio_mem :
    ∀ (es : List SplitEvent) (s : SplitScreenState), s.audioSource ∈ audioOptions →
      (es.foldl splitStep s).audioSource ∈ audioOptions := by
  intro es
  induction es with
  | nil => intro s h; exact h
  | cons e es ih =>
    intro s h
    refine ih _ ?_
    cases e with
    | setAudio i => exact List.get_mem _ i.1 i.2
    | setLayout l => exact h
    | setRatio i => exact h
    | setOutputRatio i => exact h

theorem planSplitScreen_ok (s1 s2 : SourceDim) (layout : Layout) (sr orr au : String)
    (a b p q : Nat) (h1 : parseRatio sr = some (a, b)) (h2 : parseRatio orr = some (p, q)) :
    ∃ plan : CompositionPlan, planSplitScreen s1 s2 layout sr orr au = .ok plan := by
  unfold planSplitScreen
  rw [h1, h2]
  exact ⟨_, rfl⟩

/-- C10: after any sequence of interactions with the SplitScreenFeature
controls, the merge request carries a split ratio from the fixed set
1:1, 2:1, 1:2, an output ratio from 9:16, 16:9, 1:1 and an audio source
from both, video1, video2, none; both ratio strings parse as W:H with
positive integers, so the planner's InvalidRatio failure is unreachable
from this form. -/
theorem C10_request_safety :
    ∀ es : List SplitEvent,
      (mergeRequest (splitRun es)).ratio ∈ ratioOptions ∧
      (mergeRequest (splitRun es)).outputRatio ∈ outputRatioOptions ∧
      (mergeRequest (splitRun es)).audioSource ∈ audioOptions ∧
      (∃ a b : Nat, parseRatio (mergeRequest (splitRun es)).ratio = some (a, b) ∧
        0 < a ∧ 0 < b) ∧
      (∃ p q : Nat, parseRatio (mergeRequest (splitRun es)).outputRatio = some (p, q) ∧
        0 < p ∧ 0 < q) ∧
      ∀ s1 s2 : SourceDim, ∃ plan : CompositionPlan,
        planSplitScreen s1 s2 (mergeRequest (splitRun es)).layout
          (mergeRequest (splitRun es)).ratio (mergeRequest (splitRun es)).outputRatio
          (mergeRequest (splitRun es)).audioSource = .ok plan := by
  intro es
  have hr : (splitRun es).ratio ∈ ratioOptions :=
    splitRun_ratio_mem es initSplitState (by decide)
  have ho : (splitRun es).outputRatio ∈ outputRatioOptions :=
    splitRun_outputRatio_mem es initSplitState (by decide)
  have ha : (splitRun es).audioSource ∈ audioOptions :=
    splitRun_audio_mem es initSplitState (by decide)
  have hrp : ∃ a b : Nat, parseRatio (splitRun es).ratio = some (a, b) ∧ 0 < a ∧ 0 < b := by
    simp only [ratioOptions, List.mem_cons] at hr
    rcases hr with h | h | h | h
    rotate_right
    · exact absurd h (List.not_mem_nil _)
    all_goals rw [h]
    · exact ⟨1, 1, by decide, by decide, by decide⟩
    · exact ⟨2, 1, by decide, by decide, by decide⟩
    · exact ⟨1, 2, by decide, by decide, by decide⟩
  have hop : ∃ p q : Nat, parseRatio (splitRun es).outputRatio = some (p, q) ∧ 0 < p ∧ 0 < q := by
    simp only [outputRatioOptions, List.mem_cons] at ho
    rcases ho with h | h | h | h
    rotate_right
    · exact absurd h (List.not_mem_nil _)
    all_goals rw [h]
    · exact ⟨9, 16, by decide, by decide, by decide⟩
    · exact ⟨16, 9, by decide, by decide, by decide⟩
    · exact ⟨1, 1, by decide, by decide, by decide⟩
  refine ⟨hr, ho, ha, hrp, hop, ?_⟩
  intro s1 s2
  obtain ⟨a, b, hab, -, -⟩ := hrp
  obtain ⟨p, q, hpq, -, -⟩ := hop
  exact planSplitScreen_ok s1 s2 (splitRun es).layout _ _ _ a b p q hab hpq

/-! ## C9 - duration clamp in the job-creation form -/

/-- C9: for every user-entered duration value, the duration `submit` puts
into the request body is clamped into [5, 600]; in particular it is
positive, so the duration-positivity validation of Create can never be the
failing check for a job created through this form. -/
theorem C9_duration_clamped :
    ∀ d : Int, 5 ≤ submitDuration d ∧ submitDuration d ≤ 600 ∧ 0 < submitDuration d := by
  intro d
  unfold submitDuration clampDuration
  refine ⟨le_max_left 5 _, max_le (by norm_num) (min_le_right d 600), ?_⟩
  exact lt_of_lt_of_le (by norm_num) (le_max_left 5 _)

/-! ## C5 - processing-flow presets in the job-creation form -/

/-- C5 counterexample, with the fetched preset table `tableCX` (the auto
preset lists every toggle except ocr).  First, selecting the auto flow does
not overwrite the whole toggle set as a pure function of the flow: after
first enabling ocr, selecting auto leaves ocr on, while selecting auto from
the initial state leaves ocr off.  Second, switching the change_music
toggle after selecting auto leaves the flow auto instead of reclassifying
it as custom. -/
theorem C5_counterexample :
    (formRun tableCX [.toggleAdvanced .ocr true, .selectFlow .auto]).flow = ProcFlow.auto ∧
    (formRun tableCX [.toggleAdvanced .ocr true, .selectFlow .auto]).toggles .ocr = true ∧
    (formRun tableCX [.selectFlow .auto]).flow = ProcFlow.auto ∧
    (formRun tableCX [.selectFlow .auto]).toggles .ocr = false ∧
    (formRun tableCX [.selectFlow .auto, .toggleFeature .change_music false]).flow =
      ProcFlow.auto ∧
    (formRun tableCX [.selectFlow .auto, .toggleFeature .change_music false]).toggles
      .change_music = false := by
  refine ⟨rfl, rfl, rfl, rfl, rfl, rfl⟩

/-- C5 (amended): selecting a non-custom processingFlow overwrites exactly
the toggles for which the fetched preset lists a value - each such toggle
becomes a pure function of the chosen flow and the preset table,
independent of the prior form state - while unlisted toggles keep their
prior values; switching any of the five advanced processing-option toggles
reclassifies the flow as custom, but switching the change_music or
add_effects feature toggles leaves the flow unchanged. -/
theorem C5_flow_presets :
    (∀ (table : PresetTable) (f : ProcFlow) (p : Preset) (s : FormState)
        (k : ToggleKey) (b : Bool), f ≠ ProcFlow.custom → table f = some p →
        p k = some b → (formStep table s (.selectFlow f)).toggles k = b) ∧
    (∀ (table : PresetTable) (f : ProcFlow) (p : Preset) (s : FormState)
        (k : ToggleKey), f ≠ ProcFlow.custom → table f = some p →
        p k = none → (formStep table s (.selectFlow f)).toggles k = s.toggles k) ∧
    (∀ (table : PresetTable) (s : FormState) (k : AdvKey) (b : Bool),
        (formStep table s (.toggleAdvanced k b)).flow = ProcFlow.custom) ∧
    (∀ (table : PresetTable) (s : FormState) (k : FeatKey) (b : Bool),
        (formStep table s (.toggleFeature k b)).flow = s.flow) := by
  refine ⟨?_, ?_, ?_, ?_⟩
  · intro table f p s k b hf hp hk
    simp only [formStep, if_neg hf, hp, applyPreset, hk, Option.getD_some]
  · intro table f p s k hf hp hk
    simp only [formStep, if_neg hf, hp, applyPreset, hk, Option.getD_none]
  · intro table s k b
    rfl
  · intro table s k b
    rfl

/-- C5 witness: the per-key overwrite part applied to the concrete table
`tableCX`, auto flow, the separate_audio key and the initial form state. -/
theorem C5_flow_presets_witness :
    (formStep tableCX initFormState (.selectFlow .auto)).toggles .separate_audio = false :=
  C5_flow_presets.1 tableCX .auto presetAutoCX initFormState .separate_audio false
    (by decide) (by rfl) (by rfl)

/-! ## Job lifecycle lemmas -/

theorem chain'_scanl_inv {α β : Type} (I : α → Prop) (P : β → Prop) (R : α → α → Prop)
    (f : α → β → α)
    (hpres : ∀ a e, P e → I a → I (f a e))
    (hstep : ∀ a e, P e → I a → R a (f a e)) :
    ∀ (l : List β) (a : α), (∀ e ∈ l, P e) → I a → List.Chain' R (List.scanl f a l) := by
  intro l
  induction l with
  | nil => intro a _ _; simp [List.scanl]
  | cons e es ih =>
    intro a hP hI
    simp only [List.scanl]
    refine List.chain'_cons'.mpr ⟨?_, ih (f a e)
      (fun x hx => hP x (List.mem_cons_of_mem _ hx))
      (hpres a e (hP e (List.mem_cons_self _ _)) hI)⟩
    intro b hb
    have hh : (List.scanl f (f a e) es).head? = some (f a e) := by
      cases es <;> rfl
    rw [hh] at hb
    simp only [Option.mem_def, Option.some.injEq] at hb
    subst hb
    exact hstep a e (hP e (List.mem_cons_self _ _)) hI

theorem scanl_inv {α β : Type} (I : α → Prop) (f : α → β → α)
    (hpres : ∀ a e, I a → I (f a e)) :
    ∀ (l : List β) (a : α), I a → ∀ x ∈ List.scanl f a l, I x := by
  intro l
  induction l with
  | nil =>
    intro a hI x hx
    simp only [List.scanl, List.mem_singleton] at hx
    subst hx
    exact hI
  | cons e es ih =>
    intro a hI x hx
    simp only [List.scanl] at hx
    rcases List.mem_cons.mp hx with rfl | hx
    · exact hI
    · exact ih (f a e) (hpres a e hI) x hx

theorem jobStep_legal (j : Job) (e : JobEvent) :
    (jobApply j e).status = j.status ∨
      legalTransition j.status (jobApply j e).status = true := by
  cases e with
  | advance art =>
    cases hs : j.status <;>
      simp [jobApply, jobStep, hs, nextStage, legalTransition, JobStatus.isTerminal]
  | reportProgress p =>
    left
    simp only [jobApply, jobStep]
    split <;> rfl
  | fail msg =>
    simp only [jobApply, jobStep]
    split
    · left; rfl
    · rename_i hterm
      right
      have hf : j.status.isTerminal = false := by
        revert hterm; cases j.status.isTerminal <;> simp
      simp [legalTransition, hf]
  | cancel =>
    simp only [jobApply, jobStep]
    split
    · left; rfl
    · rename_i hterm
      right
      have hf : j.status.isTerminal = false := by
        revert hterm; cases j.status.isTerminal <;> simp
      simp [legalTransition, hf]
  | retry =>
    simp only [jobApply, jobStep]
    split
    · rename_i hf
      right
      simp [legalTransition, hf]
    · left; rfl

theorem jobStep_progress_le (j : Job) (e : JobEvent) (h : j.progress ≤ 100) :
    (jobApply j e).progress ≤ 100 := by
  cases e with
  | advance art =>
    simp only [jobApply, jobStep]
    split
    · split
      · simp
      · exact h
    · exact h
  | reportProgress p =>
    simp only [jobApply, jobStep]
    split
    · rename_i hc
      simp only [Bool.and_eq_true, decide_eq_true_eq] at hc
      simpa using hc.2
    · exact h
  | fail msg =>
    simp only [jobApply, jobStep]
    split
    · exact h
    · exact h
  | cancel =>
    simp only [jobApply, jobStep]
    split
    · exact h
    · exact h
  | retry =>
    simp only [jobApply, jobStep]
    split
    · simp
    · exact h

theorem jobStep_progress_mono (j : Job) (e : JobEvent) (hne : e ≠ JobEvent.retry)
    (h : j.progress ≤ 100) : j.progress ≤ (jobApply j e).progress := by
  cases e with
  | advance art =>
    simp only [jobApply, jobStep]
    split
    · split
      · simpa using h
      · exact Nat.le_refl _
    · exact Nat.le_refl _
  | reportProgress p =>
    simp only [jobApply, jobStep]
    split
    · rename_i hc
      simp only [Bool.and_eq_true, decide_eq_true_eq] at hc
      simpa using hc.1.2
    · exact Nat.le_refl _
  | fail msg =>
    simp only [jobApply, jobStep]
    split
    · exact Nat.le_refl _
    · exact Nat.le_refl _
  | cancel =>
    simp only [jobApply, jobStep]
    split
    · exact Nat.le_refl _
    · exact Nat.le_refl _
  | retry => exact absurd rfl hne

theorem jobStep_progress_reset (j : Job) (e : JobEvent) (h : j.progress ≤ 100)
    (hdec : (jobApply j e).progress < j.progress) :
    e = JobEvent.retry ∧ (jobApply j e).progress = 0 := by
  cases e with
  | retry =>
    by_cases hf : j.status = JobStatus.failed
    · exact ⟨rfl, by simp [jobApply, jobStep, hf]⟩
    · simp [jobApply, jobStep, hf, lt_self_iff_false] at hdec
  | advance art =>
    exfalso
    simp only [jobApply, jobStep] at hdec
    split at hdec
    · split at hdec
      · simp at hdec
        omega
      · exact lt_irrefl _ hdec
    · exact lt_irrefl _ hdec
  | reportProgress p =>
    exfalso
    simp only [jobApply, jobStep] at hdec
    split at hdec
    · rename_i hc
      simp only [Bool.and_eq_true, decide_eq_true_eq] at hc
      simp at hdec
      omega
    · exact lt_irrefl _ hdec
  | fail msg =>
    exfalso
    simp only [jobApply, jobStep] at hdec
    split at hdec
    · exact lt_irrefl _ hdec
    · exact lt_irrefl _ hdec
  | cancel =>
    exfalso
    simp only [jobApply, jobStep] at hdec
    split at hdec
    · exact lt_irrefl _ hdec
    · exact lt_irrefl _ hdec

/-! ## C2 - state machine legality -/

/-- C2: along every sequence of lifecycle events (stage advancement,
progress reports, failures, Cancel, Retry), consecutive observed job states
either keep the same status or take a transition in the legal set of
section 4.1; and Retry on a job whose status is not Failed returns
InvalidState and leaves the job unchanged. -/
theorem C2_state_machine :
    (∀ (j : Job) (es : List JobEvent),
        List.Chain' (fun a b => a.status = b.status ∨ legalTransition a.status b.status = true)
          (jobTrace j es)) ∧
    (∀ j : Job, j.status ≠ JobStatus.failed →
        jobStep j .retry = (j, some ApiError.invalidState)) := by
  constructor
  · intro j es
    unfold jobTrace
    exact chain'_scanl_inv (fun _ => True) (fun _ => True) _ jobApply
      (fun _ _ _ _ => trivial)
      (fun a e _ _ => (jobStep_legal a e).imp (fun h => h.symm) (fun h => h)) es j
      (fun _ _ => trivial) trivial
  · intro j hf
    simp [jobStep, hf]

/-- C2 witness: a concrete run (start, failure, retry) stays inside the
legal transition set, and Retry on a Pending job returns InvalidState
without mutation. -/
theorem C2_state_machine_witness :
    List.Chain' (fun a b => a.status = b.status ∨ legalTransition a.status b.status = true)
      (jobTrace sampleJob [JobEvent.advance "out", JobEvent.fail "boom", JobEvent.retry]) ∧
    jobStep sampleJob .retry = (sampleJob, some ApiError.invalidState) :=
  ⟨C2_state_machine.1 sampleJob _, C2_state_machine.2 sampleJob (by decide)⟩

/-! ## C7 - progress monotonicity -/

/-- C7: within a run, the observed progress values are non-decreasing
along any retry-free event sequence and stay within [0, 100] (progress is
a natural number, so nonnegativity is inherent); the only event that can
decrease progress is Retry, which resets it to 0. -/
theorem C7_progress_monotone :
    (∀ (j : Job) (es : List JobEvent), (∀ e ∈ es, e ≠ JobEvent.retry) → j.progress ≤ 100 →
        List.Chain' (fun a b => a.progress ≤ b.progress) (jobTrace j es)) ∧
    (∀ (j : Job) (es : List JobEvent), j.progress ≤ 100 →
        ∀ k ∈ jobTrace j es, k.progress ≤ 100) ∧
    (∀ (j : Job) (e : JobEvent), j.progress ≤ 100 →
        (jobApply j e).progress < j.progress →
        e = JobEvent.retry ∧ (jobApply j e).progress = 0) := by
  refine ⟨?_, ?_, jobStep_progress_reset⟩
  · intro j es hP hI
    unfold jobTrace
    exact chain'_scanl_inv (fun a => a.progress ≤ 100) (fun e => e ≠ JobEvent.retry) _
      jobApply (fun a e _ hh => jobStep_progress_le a e hh)
      (fun a e hp hh => jobStep_progress_mono a e hp hh) es j hP hI
  · intro j es hI
    unfold jobTrace
    exact scanl_inv (fun a => a.progress ≤ 100) jobApply
      (fun a e hh => jobStep_progress_le a e hh) es j hI

/-- C7 witness: a concrete run with two progress reports is monotone. -/
theorem C7_progress_monotone_witness :
    List.Chain' (fun a b => a.progress ≤ b.progress)
      (jobTrace sampleJob
        [JobEvent.advance "x", JobEvent.reportProgress 40, JobEvent.reportProgress 80]) :=
  C7_progress_monotone.1 sampleJob _ (by decide) (by decide)

/-! ## C8 - retry frame effect and terminal immutability -/

/-- C8: a Retry on a Failed job performs exactly the Failed-to-Pending
transition, clearing errorMessage, resetting progress to 0 and
incrementing retryCount, while every other field (id, sourceRef, options,
batchId, outputRef, createdAt) is kept by the record update; any other
event leaves a terminal job unchanged, and Retry on a Completed or
Cancelled job leaves it unchanged as well. -/
theorem C8_retry_frame :
    (∀ j : Job, j.status = JobStatus.failed →
        jobStep j .retry =
          ({ j with status := .pending, progress := 0, errorMessage := none,
                    retryCount := j.retryCount + 1 }, none)) ∧
    (∀ (j : Job) (e : JobEvent), j.status.isTerminal = true → e ≠ JobEvent.retry →
        (jobStep j e).1 = j) ∧
    (∀ j : Job, j.status = JobStatus.completed ∨ j.status = JobStatus.cancelled →
        (jobStep j .retry).1 = j) := by
  refine ⟨?_, ?_, ?_⟩
  · intro j hf
    simp [jobStep, hf]
  · intro j e hterm hne
    cases e with
    | advance art =>
      simp only [jobStep]
      cases hs : j.status <;> simp_all [JobStatus.isTerminal, nextStage]
    | reportProgress p =>
      simp only [jobStep]
      split
      · rename_i hc
        simp only [Bool.and_eq_true, decide_eq_true_eq] at hc
        exfalso
        cases hs : j.status <;> simp_all [JobStatus.isTerminal, JobStatus.isRunning]
      · rfl
    | fail msg =>
      simp [jobStep, hterm]
    | cancel =>
      simp [jobStep, hterm]
    | retry => exact absurd rfl hne
  · intro j h
    rcases h with h | h <;> simp [jobStep, h]

/-- C8 witness: retrying the sample failed job yields exactly the pending
job with cleared error, zero progress and incremented retryCount. -/
theorem C8_retry_frame_witness :
    jobStep sampleFailedJob .retry =
      ({ sampleFailedJob with status := .pending, progress := 0, errorMessage := none,
                              retryCount := sampleFailedJob.retryCount + 1 }, none) :=
  C8_retry_frame.1 sampleFailedJob (by rfl)

/-! ## C6 - create validation -/

/-- C6: Create with invalid options (non-positive duration or unknown enum
value) returns InvalidOptions immediately and persists nothing - the store
is unchanged, so the error never reaches persisted job state; Create with
valid options appends exactly one new job, which is Pending with zero
progress and no error message (execution is not started by Create). -/
theorem C6_create_validation :
    (∀ (store : List Job) (src : String) (o : JobOptions) (now : Nat),
        validOptions o = false →
        createJob store src o now = (store, .error .invalidOptions)) ∧
    (∀ (store : List Job) (src : String) (o : JobOptions) (now : Nat),
        validOptions o = true →
        createJob store src o now =
          (store ++ [mkJob store.length src o now], .ok (mkJob store.length src o now)) ∧
        (mkJob store.length src o now).status = .pending ∧
        (mkJob store.length src o now).progress = 0 ∧
        (mkJob store.length src o now).errorMessage = none) := by
  constructor
  · intro store src o now h
    simp [createJob, h]
  · intro store src o now h
    exact ⟨by simp [createJob, h], rfl, rfl, rfl⟩

/-- C6 witness: a zero-duration request is rejected with InvalidOptions
and the empty store stays empty, while the sample options create a pending
job. -/
theorem C6_create_validation_witness :
    createJob [] "https://example.com/v"
      { duration := 0, targetPlatform := "tiktok", videoType := "short",
        processingFlow := "auto" } 0 = ([], .error .invalidOptions) ∧
    createJob [] "https://example.com/v" sampleOptions 0 =
      ([mkJob 0 "https://example.com/v" sampleOptions 0],
        .ok (mkJob 0 "https://example.com/v" sampleOptions 0)) :=
  ⟨C6_create_validation.1 [] "https://example.com/v" _ 0 (by decide),
    (C6_create_validation.2 [] "https://example.com/v" sampleOptions 0 (by decide)).1⟩

/-! ## C4 - batch aggregation -/

/-- C4: the batch view returned by Status is a pure function of the
current child statuses (so counts and status are recomputed on every
call); the derived status is Completed exactly when all children are
terminal and not all of them are Failed; it is Failed only when all
children are Failed, so a single failed child never fails the batch; and
batch-level Cancel never modifies an already-terminal child, so a failed
child is never aborted or altered by sibling-level operations. -/
theorem C4_batch_aggregation :
    (∀ (store1 store2 : List Job) (b : Batch),
        childStatuses store1 b = childStatuses store2 b →
        batchStatusView store1 b = batchStatusView store2 b) ∧
    (∀ (store : List Job) (b : Batch),
        (batchStatusView store b).status = .completed ↔
          ((∀ s ∈ childStatuses store b, s.isTerminal = true) ∧
            ¬∀ s ∈ childStatuses store b, s = JobStatus.failed)) ∧
    (∀ (store : List Job) (b : Batch), (batchStatusView store b).status = .failed →
        ∀ s ∈ childStatuses store b, s = JobStatus.failed) ∧
    (∀ (store : List Job) (b : Batch) (j : Job), j ∈ store →
        j.status.isTerminal = true → j ∈ batchCancel store b) := by
  refine ⟨?_, ?_, ?_, ?_⟩
  · intro store1 store2 b h
    simp only [batchStatusView, h]
  · intro store b
    have hterm : (childStatuses store b).all (fun s => s.isTerminal) = true ↔
        ∀ s ∈ childStatuses store b, s.isTerminal = true := by
      simp [List.all_eq_true]
    have hfail : (childStatuses store b).all (fun s => decide (s = JobStatus.failed)) = true ↔
        ∀ s ∈ childStatuses store b, s = JobStatus.failed := by
      simp [List.all_eq_true]
    simp only [batchStatusView, deriveBatchStatus]
    split_ifs with h1 h2 h3
    · constructor
      · intro h; exact h.elim
      · rintro ⟨-, hn⟩
        exact absurd (hfail.mp h2) hn
    · constructor
      · intro _
        exact ⟨hterm.mp h1, fun hall => h2 (hfail.mpr hall)⟩
      · intro _; rfl
    · constructor
      · intro h; exact h.elim
      · rintro ⟨hall, -⟩
        exact absurd (hterm.mpr hall) h1
    · constructor
      · intro h; exact h.elim
      · rintro ⟨hall, -⟩
        exact absurd (hterm.mpr hall) h1
  · intro store b
    have hfail : (childStatuses store b).all (fun s => decide (s = JobStatus.failed)) = true ↔
        ∀ s ∈ childStatuses store b, s = JobStatus.failed := by
      simp [List.all_eq_true]
    simp only [batchStatusView, deriveBatchStatus]
    split_ifs with h1 h2 h3
    · intro _
      exact hfail.mp h2
    · intro h; exact h.elim
    · intro h; exact h.elim
    · intro h; exact h.elim
  · intro store b j hj hterm
    unfold batchCancel
    refine List.mem_map.mpr ⟨j, hj, ?_⟩
    split
    · simp [jobApply, jobStep, hterm]
    · rfl

/-- C4 witness: with one failed and one completed child, the batch status
is Completed (not Failed), Status is recomputed from the child statuses,
and batch Cancel leaves the failed child untouched. -/
theorem C4_batch_aggregation_witness :
    ((batchStatusView [sampleFailedJob, { sampleJob with id := 1, status := .completed }]
        ⟨0, [0, 1]⟩).status = .completed ↔
      ((∀ s ∈ childStatuses [sampleFailedJob, { sampleJob with id := 1, status := .completed }]
          ⟨0, [0, 1]⟩, s.isTerminal = true) ∧
        ¬∀ s ∈ childStatuses [sampleFailedJob, { sampleJob with id := 1, status := .completed }]
          ⟨0, [0, 1]⟩, s = JobStatus.failed)) ∧
    sampleFailedJob ∈
      batchCancel [sampleFailedJob, { sampleJob with id := 1, status := .completed }]
        ⟨0, [0, 1]⟩ :=
  ⟨C4_batch_aggregation.2.1 _ _,
    C4_batch_aggregation.2.2.2 _ ⟨0, [0, 1]⟩ sampleFailedJob (by decide) (by decide)⟩
